import Mathlib

/-!
# Restricted code-execution sandbox — verification development

The repository's analytical agents delegate Python-snippet execution to a
sandboxed executor package (`executor.py`, `validator.py`, `namespace.py`,
`defaults.py`, `exceptions.py`).  That package is documented in the
repository's READMEs (knowledge_insight agent, Executor Package tables) but
its code is not present in the source tree, so every definition below is
modelled from the design specification of the sandbox: the Policy data,
the AST validator, the namespace builder, and the fuel-bounded executor.

Scripts are modelled by their abstract syntax trees (the spec's validator
operates on the AST produced by the host parser), together with a small
`parse` function covering the syntactic forms used by the spec's examples
(`import os`, `x.__class__`, `result = 1/0`, `while True: pass`,
assignments and simple expressions).  The wall-clock deadline is modelled
as a fuel budget: one unit of fuel per executed statement, so a script
that loops unconditionally exhausts any finite budget.

String scanning is implemented over character lists so that every
definition evaluates by kernel reduction on concrete inputs.
-/

namespace Sandbox

/-- Does the character list start with the given pattern? -/
def listStartsWith : List Char → List Char → Bool
  | _, [] => true
  | [], _ :: _ => false
  | c :: cs, d :: ds => c = d && listStartsWith cs ds

/-- Does the string start with the given pattern? -/
def strStartsWith (s pre : String) : Bool :=
  listStartsWith s.data pre.data

/-- Does the string end with the given pattern? -/
def strEndsWith (s suf : String) : Bool :=
  listStartsWith s.data.reverse suf.data.reverse

/-- Modelled from the spec: runtime values a script can compute
(datasets and helper results are coerced to text on output). -/
inductive Value where
  | int : Int → Value
  | str : String → Value
  | bool : Bool → Value
deriving DecidableEq

/-- Modelled from the spec: `Success.value` is "the content bound to the
designated output name, coerced to text". -/
def stringify : Value → String
  | .int n => toString n
  | .str s => s
  | .bool b => if b then "True" else "False"

/-- Modelled from the spec (§3 Data Model, missing `defaults.py`):
immutable Policy configuration — allowed modules, denied callables,
time limit and maximum output size. -/
structure Policy where
  allowedModules : List String
  deniedCallables : List String
  timeLimit : Nat
  maxOutputSize : Nat
deriving DecidableEq

/-- Modelled from the spec: `isModuleAllowed(name)` — exact or prefix
match against the allow-list; default deny. -/
def Policy.isModuleAllowed (p : Policy) (m : String) : Bool :=
  p.allowedModules.any fun a => a = m || strStartsWith m (a ++ ".")

/-- Modelled from the spec: `isCallableAllowed(name)` — explicit deny-list
overrides a broad default allow. -/
def Policy.isCallableAllowed (p : Policy) (f : String) : Bool :=
  !(p.deniedCallables.any fun d => d = f)

/-- Modelled from the spec: `isAttributeNameSafe(name)` rejects names
matching the reflection/dunder-style lexical pattern (leading and
trailing double underscores). -/
def isAttributeNameSafe (a : String) : Bool :=
  !(strStartsWith a "__" && strEndsWith a "__")

/-- Binary operators of the modelled expression language. -/
inductive BinOp where
  | add | sub | mul | div
deriving DecidableEq

/-- Modelled from the spec: expression nodes of the script AST —
literals, variable references, attribute access, calls with a
statically resolvable callee name, and binary operations. -/
inductive Expr where
  | lit : Value → Expr
  | var : String → Expr
  | attr : Expr → String → Expr
  | call : String → Expr → Expr
  | binop : BinOp → Expr → Expr → Expr
deriving DecidableEq

/-- Modelled from the spec: statement nodes of the script AST — module
imports, assignments, expression statements, an unconditional
loop (`while True:`), and dynamic-evaluation nodes (always rejected). -/
inductive Stmt where
  | importMod : String → Stmt
  | assign : String → Expr → Stmt
  | exprStmt : Expr → Stmt
  | whileTrue : List Stmt → Stmt
  | dynEval : Expr → Stmt

/-- A script's parsed form: a statement list. -/
abbrev Script := List Stmt

/-- Modelled from the spec: a `ValidationResult` is acceptance or a
structured `ValidationFailure{reason}`. -/
inductive VResult where
  | ok : VResult
  | failure : String → VResult
deriving DecidableEq

mutual

/-- Modelled from the spec (missing `validator.py`): depth-first
left-to-right check of an expression node, the node itself before its
children, returning the first violation's reason. -/
def validateExpr (p : Policy) : Expr → Option String
  | .lit _ => none
  | .var _ => none
  | .attr e a =>
      if isAttributeNameSafe a then validateExpr p e
      else some ("blocked attribute: " ++ a)
  | .call f a =>
      if p.isCallableAllowed f then validateExpr p a
      else some ("blocked callable: " ++ f)
  | .binop _ l r =>
      match validateExpr p l with
      | some r' => some r'
      | none => validateExpr p r

/-- Modelled from the spec (missing `validator.py`): first violation of a
single statement. Dynamic evaluation is a hard rule, rejected regardless
of the policy tables. -/
def validateStmt (p : Policy) : Stmt → Option String
  | .importMod m =>
      if p.isModuleAllowed m then none else some ("blocked module: " ++ m)
  | .assign _ e => validateExpr p e
  | .exprStmt e => validateExpr p e
  | .whileTrue body => validateStmts p body
  | .dynEval _ => some "dynamic evaluation is not allowed"

/-- Modelled from the spec (missing `validator.py`): first violation of a
statement list, in order. -/
def validateStmts (p : Policy) : List Stmt → Option String
  | [] => none
  | s :: rest =>
      match validateStmt p s with
      | some r => some r
      | none => validateStmts p rest

end

/-- Modelled from the spec: `validate` — traversal stops at the first
violation; acceptance otherwise.  No code runs during validation. -/
def validate (p : Policy) (s : Script) : VResult :=
  match validateStmts p s with
  | some r => .failure r
  | none => .ok

mutual

/-- All violations of an expression in the same depth-first,
left-to-right order the validator uses (specification of the traversal
order, used to state the first-violation property). -/
def violationsExpr (p : Policy) : Expr → List String
  | .lit _ => []
  | .var _ => []
  | .attr e a =>
      (if isAttributeNameSafe a then [] else ["blocked attribute: " ++ a])
        ++ violationsExpr p e
  | .call f a =>
      (if p.isCallableAllowed f then [] else ["blocked callable: " ++ f])
        ++ violationsExpr p a
  | .binop _ l r => violationsExpr p l ++ violationsExpr p r

/-- All violations of a statement, depth-first. -/
def violationsStmt (p : Policy) : Stmt → List String
  | .importMod m =>
      if p.isModuleAllowed m then [] else ["blocked module: " ++ m]
  | .assign _ e => violationsExpr p e
  | .exprStmt e => violationsExpr p e
  | .whileTrue body => violationsStmts p body
  | .dynEval _ => ["dynamic evaluation is not allowed"]

/-- All violations of a statement list, in order. -/
def violationsStmts (p : Policy) : List Stmt → List String
  | [] => []
  | s :: rest => violationsStmt p s ++ violationsStmts p rest

end

/-- Modelled from the spec (missing `exceptions.py`): the host errors a
script can raise at run time.  The executor reports only their short
textual description. -/
inductive RtError where
  | divisionByZero
  | nameNotDefined
  | notCallable
  | typeMismatch
  | dynamicEvalError
deriving DecidableEq

/-- Modelled from the spec: the host error's textual description — the
only content a `RuntimeFailure` reason may carry. -/
def describe : RtError → String
  | .divisionByZero => "division by zero"
  | .nameNotDefined => "name is not defined"
  | .notCallable => "object is not callable"
  | .typeMismatch => "unsupported operand type"
  | .dynamicEvalError => "dynamic evaluation is not allowed"

/-- A helper exposed to scripts: a pure function on values. -/
abbrev HelperFn := Value → Except RtError Value

/-- A namespace entry: a dataset value or an allow-listed helper. -/
inductive Binding where
  | val : Value → Binding
  | helper : HelperFn → Binding

/-- Modelled from the spec (missing `namespace.py`): the restricted
global binding set, a mapping from binding name to value. -/
abbrev Namespace := List (String × Binding)

/-- Modelled from the spec: `build(datasets, helpers)` — the namespace
holds precisely the dataset bindings followed by the helper bindings,
and nothing else. -/
def build (datasets : List (String × Value)) (helpers : List (String × HelperFn)) :
    Namespace :=
  datasets.map (fun d => (d.1, Binding.val d.2))
    ++ helpers.map (fun h => (h.1, Binding.helper h.2))

/-- The binding names a namespace exposes, in order. -/
def nsNames (ns : Namespace) : List String := ns.map Prod.fst

/-- Look a name up in a namespace (later bindings shadow earlier ones,
matching assignment that prepends). -/
def lookupNs (ns : Namespace) (x : String) : Option Binding :=
  match ns with
  | [] => none
  | b :: rest => if b.1 = x then some b.2 else lookupNs rest x

/-- Apply a binary operator to two values. -/
def applyBin (op : BinOp) : Value → Value → Except RtError Value
  | .int a, .int b =>
      match op with
      | .add => .ok (.int (a + b))
      | .sub => .ok (.int (a - b))
      | .mul => .ok (.int (a * b))
      | .div => if b = 0 then .error .divisionByZero else .ok (.int (a / b))
  | .str a, .str b =>
      match op with
      | .add => .ok (.str (a ++ b))
      | _ => .error .typeMismatch
  | _, _ => .error .typeMismatch

/-- Modelled from the spec (missing `executor.py`): expression
evaluation inside the restricted namespace.  Names resolve only through
the namespace; the simple values of the model carry no attributes, so
runtime attribute access fails with a type error. -/
def evalExpr (ns : Namespace) : Expr → Except RtError Value
  | .lit v => .ok v
  | .var x =>
      match lookupNs ns x with
      | some (.val v) => .ok v
      | some (.helper _) => .error .typeMismatch
      | none => .error .nameNotDefined
  | .attr e _ =>
      match evalExpr ns e with
      | .ok _ => .error .typeMismatch
      | .error er => .error er
  | .call f a =>
      match lookupNs ns f with
      | some (.helper fn) =>
          match evalExpr ns a with
          | .ok v => fn v
          | .error er => .error er
      | some (.val _) => .error .notCallable
      | none => .error .nameNotDefined
  | .binop op l r =>
      match evalExpr ns l with
      | .error er => .error er
      | .ok va =>
          match evalExpr ns r with
          | .error er => .error er
          | .ok vb => applyBin op va vb

/-- Outcome of running statements under a fuel budget: normal
termination with the final namespace, a raised host error, or fuel
exhaustion (the wall-clock deadline elapsed). -/
inductive ExecOutcome where
  | ok : Namespace → ExecOutcome
  | err : RtError → ExecOutcome
  | timeout : ExecOutcome

/-- Modelled from the spec (missing `executor.py`): execute a statement
worklist under a fuel budget.  Each executed statement consumes one unit
of fuel; the unconditional loop re-queues its body and itself, so it
exhausts any finite budget. -/
def exec : Nat → List Stmt → Namespace → ExecOutcome
  | _, [], ns => .ok ns
  | 0, _ :: _, _ => .timeout
  | fuel + 1, s :: rest, ns =>
      match s with
      | .importMod _ => exec fuel rest ns
      | .assign x e =>
          match evalExpr ns e with
          | .ok v => exec fuel rest ((x, Binding.val v) :: ns)
          | .error er => .err er
      | .exprStmt e =>
          match evalExpr ns e with
          | .ok _ => exec fuel rest ns
          | .error er => .err er
      | .whileTrue body => exec fuel (body ++ Stmt.whileTrue body :: rest) ns
      | .dynEval _ => .err .dynamicEvalError

/-- The designated output: the single reserved binding name whose final
value is the sandbox's sole return channel. -/
def outputName : String := "result"

/-- Look up a value binding (a helper is not a bindable output value). -/
def lookupVal (ns : Namespace) (x : String) : Option Value :=
  match lookupNs ns x with
  | some (.val v) => some v
  | _ => none

/-- Which resource limit was exceeded. -/
inductive ResourceKind where
  | timeout
  | outputTooLarge
deriving DecidableEq

/-- Modelled from the spec: `ExecutionResult`, the tagged union returned
once per request. -/
inductive ExecutionResult where
  | success : String → ExecutionResult
  | validationFailure : String → ExecutionResult
  | runtimeFailure : String → ExecutionResult
  | resourceExceeded : ResourceKind → ExecutionResult
deriving DecidableEq

/-- Modelled from the spec (missing `executor.py`): `run(source,
namespace, limits)` — execute under the deadline, then classify: timeout,
caught host error (sanitized description), missing designated output,
oversized stringified output, or success. -/
def run (p : Policy) (s : Script) (ns : Namespace) : ExecutionResult :=
  match exec p.timeLimit s ns with
  | .timeout => .resourceExceeded .timeout
  | .err er => .runtimeFailure (describe er)
  | .ok ns' =>
      match lookupVal ns' outputName with
      | none => .runtimeFailure "no result produced"
      | some v =>
          if (stringify v).length > p.maxOutputSize then
            .resourceExceeded .outputTooLarge
          else .success (stringify v)

/-- The pipeline on a parsed script: validate, then build the namespace
and run; `run` is reached only when validation accepted. -/
def executeAst (p : Policy) (ast : Script) (datasets : List (String × Value))
    (helpers : List (String × HelperFn)) : ExecutionResult :=
  match validate p ast with
  | .failure r => .validationFailure r
  | .ok => run p ast (build datasets helpers)

/-- A character that may appear in an identifier. -/
def isIdentChar (c : Char) : Bool := c.isAlphanum || c = '_'

/-- A plausible identifier as a character list: nonempty, identifier
characters only, not starting with a digit. -/
def isIdentChars (l : List Char) : Bool :=
  match l with
  | [] => false
  | c :: _ => (c.isAlpha || c = '_') && l.all isIdentChar

/-- A plausible dotted module path as a character list. -/
def isModPathChars (l : List Char) : Bool :=
  !l.isEmpty && l.all (fun c => isIdentChar c || c = '.')

/-- Is the character horizontal whitespace? -/
def isSpaceChar (c : Char) : Bool := c = ' ' || c = '\t' || c = '\r'

/-- Drop leading whitespace characters. -/
def dropLeading : List Char → List Char
  | [] => []
  | c :: cs => if isSpaceChar c then dropLeading cs else c :: cs

/-- Trim whitespace from both ends of a character list. -/
def trimChars (l : List Char) : List Char :=
  (dropLeading (dropLeading l).reverse).reverse

/-- Split a character list at every occurrence of a separator. -/
def splitChar (sep : Char) : List Char → List (List Char)
  | [] => [[]]
  | c :: cs =>
      if c = sep then [] :: splitChar sep cs
      else
        match splitChar sep cs with
        | [] => [[c]]
        | p :: ps => (c :: p) :: ps

/-- Split at the last occurrence of a separator, if any. -/
def splitLastAux (sep : Char) : List Char → Option (List Char × List Char)
  | [] => none
  | c :: cs =>
      match splitLastAux sep cs with
      | some (l, r) => some (c :: l, r)
      | none => if c = sep then some ([], cs) else none

/-- Split at the first occurrence of a separator, if any. -/
def splitFirst (sep : Char) : List Char → Option (List Char × List Char)
  | [] => none
  | c :: cs =>
      if c = sep then some ([], cs)
      else
        match splitFirst sep cs with
        | some (l, r) => some (c :: l, r)
        | none => none

/-- Split an assignment line at the first ` = `, if any. -/
def splitAssign : List Char → Option (List Char × List Char)
  | [] => none
  | c :: cs =>
      if listStartsWith (c :: cs) [' ', '=', ' '] then
        some ([], cs.drop 2)
      else
        match splitAssign cs with
        | some (l, r) => some (c :: l, r)
        | none => none

/-- Read a nonempty digit sequence as a natural number. -/
def digitsToNat (acc : Nat) : List Char → Option Nat
  | [] => some acc
  | c :: cs =>
      if c.isDigit then digitsToNat (acc * 10 + (c.toNat - '0'.toNat)) cs
      else none

/-- Modelled from the spec: parse one expression of the example grammar
(division chains, single-argument calls, attribute access, string and
integer literals, variables), with fuel bounding recursion depth. -/
def parseExprFuel : Nat → List Char → Option Expr
  | 0, _ => none
  | fuel + 1, s0 =>
      let t := trimChars s0
      match splitLastAux '/' t with
      | some (l, r) =>
          match parseExprFuel fuel l, parseExprFuel fuel r with
          | some el, some er => some (.binop .div el er)
          | _, _ => none
      | none =>
          match splitFirst '(' t with
          | some (callee, rest) =>
              if isIdentChars callee then
                match rest.reverse with
                | ')' :: innerRev =>
                    match parseExprFuel fuel innerRev.reverse with
                    | some a => some (.call (String.mk callee) a)
                    | none => none
                | _ => none
              else none
          | none =>
              match splitLastAux '.' t with
              | some (l, a) =>
                  if isIdentChars a then
                    match parseExprFuel fuel l with
                    | some e => some (.attr e (String.mk a))
                    | none => none
                  else none
              | none =>
                  match t with
                  | '"' :: rest =>
                      match rest.reverse with
                      | '"' :: innerRev => some (.lit (.str (String.mk innerRev.reverse)))
                      | _ => none
                  | _ =>
                      if isIdentChars t then some (.var (String.mk t))
                      else
                        match t with
                        | [] => none
                        | _ =>
                            match digitsToNat 0 t with
                            | some n => some (.lit (.int n))
                            | none => none

/-- Parse an expression, with fuel large enough for the source's length. -/
def parseExpr (l : List Char) : Option Expr := parseExprFuel (l.length + 1) l

/-- Modelled from the spec: parse one statement line — imports,
the unconditional loop, assignments, or a bare expression. -/
def parseStmt (line : List Char) : Option Stmt :=
  let t := trimChars line
  if listStartsWith t "import ".data then
    let m := trimChars (t.drop 7)
    if isModPathChars m then some (.importMod (String.mk m)) else none
  else if t = "while True: pass".data then
    some (.whileTrue [])
  else
    match splitAssign t with
    | some (x, rhs) =>
        let xt := trimChars x
        if isIdentChars xt then
          match parseExpr rhs with
          | some e => some (.assign (String.mk xt) e)
          | none => none
        else none
    | none =>
        match parseExpr t with
        | some e => some (.exprStmt e)
        | none => none

/-- Parse every line of a script; any bad line is a syntax error. -/
def parseLines : List (List Char) → Option Script
  | [] => some []
  | l :: ls =>
      match parseStmt l, parseLines ls with
      | some s, some rest => some (s :: rest)
      | _, _ => none

/-- Modelled from the spec: parse a source string into its AST, one
statement per nonblank line; `none` is a syntax error. -/
def parse (src : String) : Option Script :=
  parseLines (((splitChar '\n' src.data).map trimChars).filter (fun l => !l.isEmpty))

/-- Modelled from the spec (§6 External Interfaces): the sandbox's one
operation — `execute(source, datasets, helpers)`, composing validation,
namespace construction and the bounded run. -/
def execute (p : Policy) (src : String) (datasets : List (String × Value))
    (helpers : List (String × HelperFn)) : ExecutionResult :=
  match parse src with
  | none => .validationFailure "syntax error"
  | some ast => executeAst p ast datasets helpers

/-- Modelled from the spec (missing `defaults.py`): a representative
default policy — allow-listed analysis modules, deny-listed dangerous
callables, and numeric limits. -/
def defaultPolicy : Policy where
  allowedModules := ["math", "statistics", "collections", "itertools", "datetime", "json", "re"]
  deniedCallables := ["eval", "exec", "compile", "open", "input", "__import__",
    "globals", "locals", "vars", "getattr", "setattr", "delattr", "exit", "quit"]
  timeLimit := 100
  maxOutputSize := 100

/-- A request started at time `t0` consumes the policy the (possibly
hot-reloaded) policy source supplied at its start, and nothing later. -/
def executeAt (pol : Nat → Policy) (t0 : Nat) (src : String)
    (datasets : List (String × Value)) (helpers : List (String × HelperFn)) :
    ExecutionResult :=
  execute (pol t0) src datasets helpers

/-- Does the character list contain the given contiguous pattern? -/
def containsSeq : List Char → List Char → Bool
  | [], needle => needle.isEmpty
  | c :: cs, needle => listStartsWith (c :: cs) needle || containsSeq cs needle

/-- A sanitized failure reason: single-line, no stack-trace markers, no
path separators. -/
def sanitizedMsg (r : String) : Bool :=
  !(r.data.any fun c => c = '\n') &&
    !containsSeq r.data "Traceback".data &&
    !containsSeq r.data "File \"".data &&
    !containsSeq r.data "/".data

mutual

/-- Does a statement contain (at any depth) an import of a module the
policy does not allow? -/
def stmtHasBlockedImport (p : Policy) : Stmt → Bool
  | .importMod m => !p.isModuleAllowed m
  | .whileTrue body => stmtsHaveBlockedImport p body
  | _ => false

/-- Does any statement of the list contain a blocked import? -/
def stmtsHaveBlockedImport (p : Policy) : List Stmt → Bool
  | [] => false
  | s :: rest => stmtHasBlockedImport p s || stmtsHaveBlockedImport p rest

end

mutual

/-- Does an expression contain an attribute access whose name matches
the dunder-style lexical pattern? -/
def exprHasUnsafeAttr : Expr → Bool
  | .lit _ => false
  | .var _ => false
  | .attr e a => !isAttributeNameSafe a || exprHasUnsafeAttr e
  | .call _ a => exprHasUnsafeAttr a
  | .binop _ l r => exprHasUnsafeAttr l || exprHasUnsafeAttr r

/-- Does a statement contain an unsafe attribute access? -/
def stmtHasUnsafeAttr : Stmt → Bool
  | .importMod _ => false
  | .assign _ e => exprHasUnsafeAttr e
  | .exprStmt e => exprHasUnsafeAttr e
  | .whileTrue body => stmtsHaveUnsafeAttr body
  | .dynEval e => exprHasUnsafeAttr e

/-- Does any statement of the list contain an unsafe attribute access? -/
def stmtsHaveUnsafeAttr : List Stmt → Bool
  | [] => false
  | s :: rest => stmtHasUnsafeAttr s || stmtsHaveUnsafeAttr rest

end

/-- C7: `build(d, h)` returns a namespace whose binding names are exactly
the keys of `d` followed by the keys of `h` — nothing else is ever bound,
so a name resolves in the namespace iff it is a dataset key or a helper
key; each call is a pure construction from its two arguments. -/
theorem build_names_exactly_datasets_and_helpers
    (d : List (String × Value)) (hl : List (String × HelperFn)) :
    nsNames (build d hl) = d.map Prod.fst ++ hl.map Prod.fst ∧
    ∀ n, n ∈ nsNames (build d hl) ↔ n ∈ d.map Prod.fst ∨ n ∈ hl.map Prod.fst := by
  constructor
  · simp [nsNames, build, Function.comp_def]
  · intro n
    simp [nsNames, build, Function.comp_def]

/-- C9: the execute pipeline is deterministic — running the same script
a second time against identical datasets and helpers yields the same
`Success` value as the first run. -/
theorem execute_deterministic_rerun (p : Policy) (src : String)
    (d₁ d₂ : List (String × Value)) (h₁ h₂ : List (String × HelperFn)) (v : String)
    (hd : d₁ = d₂) (hh : h₁ = h₂) (hs : execute p src d₁ h₁ = .success v) :
    execute p src d₂ h₂ = .success v := by
  subst hd
  subst hh
  exact hs

/-- C9 witness: `result = 9/3` succeeds with value `"3"`, and the second
run against identical (empty) datasets returns the same value. -/
theorem execute_deterministic_rerun_witness :
    ([] : List (String × Value)) = [] ∧
    execute defaultPolicy "result = 9/3" [] [] = .success "3" :=
  ⟨rfl, execute_deterministic_rerun defaultPolicy "result = 9/3" [] [] [] [] "3"
    rfl rfl (by decide)⟩

/-- C10: an in-flight request consumes the policy supplied when it
started; two policy timelines that agree at the request's start time
yield identical results, no matter how the rest of the timeline (a
hot-reload during the run) differs. -/
theorem inflight_run_pinned_to_start_policy (pol pol' : Nat → Policy) (t0 : Nat)
    (src : String) (d : List (String × Value)) (hl : List (String × HelperFn))
    (hagree : pol t0 = pol' t0) :
    executeAt pol t0 src d hl = executeAt pol' t0 src d hl := by
  unfold executeAt
  rw [hagree]

/-- C10 witness: a timeline hot-reloaded to a zero-budget policy right
after time 0 gives the same answer for a request started at time 0 as
the never-reloaded timeline. -/
theorem inflight_run_pinned_witness :
    (fun t => if t = 0 then defaultPolicy else { defaultPolicy with timeLimit := 0 }) 0 =
      (fun _ => defaultPolicy) 0 ∧
    executeAt (fun t => if t = 0 then defaultPolicy else { defaultPolicy with timeLimit := 0 })
        0 "result = 6/2" [] [] =
      executeAt (fun _ => defaultPolicy) 0 "result = 6/2" [] [] :=
  ⟨rfl, inflight_run_pinned_to_start_policy _ _ 0 "result = 6/2" [] [] rfl⟩

/-- Inversion of `run`: a success implies normal termination within the
fuel budget, a value bound to the designated output, and an in-limit
stringified output equal to the reported value. -/
theorem run_success_inv (p : Policy) (s : Script) (ns : Namespace) (v : String)
    (h : run p s ns = .success v) :
    ∃ ns' val, exec p.timeLimit s ns = .ok ns' ∧
      lookupVal ns' outputName = some val ∧
      stringify val = v ∧ (stringify val).length ≤ p.maxOutputSize := by
  cases hex : exec p.timeLimit s ns with
  | timeout =>
      simp only [run, hex] at h
      exact absurd h (by simp)
  | err er =>
      simp only [run, hex] at h
      exact absurd h (by simp)
  | ok ns' =>
      simp only [run, hex] at h
      cases hlv : lookupVal ns' outputName with
      | none =>
          simp only [hlv] at h
          exact absurd h (by simp)
      | some val =>
          simp only [hlv] at h
          by_cases hlen : (stringify val).length > p.maxOutputSize
          · rw [if_pos hlen] at h
            exact absurd h (by simp)
          · rw [if_neg hlen] at h
            refine ⟨ns', val, rfl, hlv, ?_, Nat.le_of_not_lt hlen⟩
            exact ExecutionResult.success.inj h

/-- C1: if `execute(s, d, h)` returns `Success{value}`, then the source
parsed, validation accepted it, the run terminated normally within the
`timeLimit` fuel budget, and the final namespace bound a value to the
designated output name whose stringification (within the output limit)
is the reported value — so `Success` arises in no other situation. -/
theorem success_requires_validation_deadline_and_output
    (p : Policy) (src : String) (d : List (String × Value))
    (hl : List (String × HelperFn)) (v : String)
    (h : execute p src d hl = .success v) :
    ∃ ast, parse src = some ast ∧ validate p ast = .ok ∧
      ∃ ns' val, exec p.timeLimit ast (build d hl) = .ok ns' ∧
        lookupVal ns' outputName = some val ∧
        stringify val = v ∧ (stringify val).length ≤ p.maxOutputSize := by
  cases hp : parse src with
  | none =>
      simp only [execute, hp] at h
      exact absurd h (by simp)
  | some ast =>
      simp only [execute, hp] at h
      cases hv : validate p ast with
      | failure r =>
          simp only [executeAst, hv] at h
          exact absurd h (by simp)
      | ok =>
          simp only [executeAst, hv] at h
          exact ⟨ast, rfl, hv, run_success_inv p ast (build d hl) v h⟩

/-- C1 witness: `result = 8/2` succeeds with `"4"`, and the theorem's
conclusions hold for it. -/
theorem success_requires_validation_witness :
    execute defaultPolicy "result = 8/2" [] [] = .success "4" ∧
    (∃ ast, parse "result = 8/2" = some ast ∧ validate defaultPolicy ast = .ok ∧
      ∃ ns' val, exec defaultPolicy.timeLimit ast (build [] []) = .ok ns' ∧
        lookupVal ns' outputName = some val ∧
        stringify val = "4" ∧ (stringify val).length ≤ defaultPolicy.maxOutputSize) :=
  ⟨by decide,
    success_requires_validation_deadline_and_output defaultPolicy "result = 8/2" [] [] "4"
      (by decide)⟩

/-- C4: when a validated script terminates normally, the result is
classified exactly as the spec says — `RuntimeFailure{"no result
produced"}` when the designated output was never bound,
`ResourceExceeded(OutputTooLarge)` when the stringified output exceeds
`maxOutputSize`, and `Success` with the stringified output otherwise. -/
theorem normal_termination_classification (p : Policy) (s : Script)
    (ns ns' : Namespace) (h : exec p.timeLimit s ns = .ok ns') :
    (lookupVal ns' outputName = none →
      run p s ns = .runtimeFailure "no result produced") ∧
    (∀ v, lookupVal ns' outputName = some v →
      (stringify v).length > p.maxOutputSize →
      run p s ns = .resourceExceeded .outputTooLarge) ∧
    (∀ v, lookupVal ns' outputName = some v →
      (stringify v).length ≤ p.maxOutputSize →
      run p s ns = .success (stringify v)) := by
  refine ⟨?_, ?_, ?_⟩
  · intro hnone
    simp only [run, h, hnone]
  · intro v hv hlen
    simp only [run, h, hv]
    rw [if_pos hlen]
  · intro v hv hlen
    simp only [run, h, hv]
    rw [if_neg (Nat.not_lt.mpr hlen)]

/-- C4 witness: a script that binds `result` to 7 terminates normally
and is classified as `Success{"7"}`. -/
theorem normal_termination_classification_witness :
    exec defaultPolicy.timeLimit [Stmt.assign "result" (.lit (.int 7))] [] =
      .ok [("result", Binding.val (.int 7))] ∧
    run defaultPolicy [Stmt.assign "result" (.lit (.int 7))] [] = .success "7" := by
  refine ⟨rfl, ?_⟩
  have h := normal_termination_classification defaultPolicy
    [Stmt.assign "result" (.lit (.int 7))] [] [("result", Binding.val (.int 7))] rfl
  exact h.2.2 (.int 7) rfl (by decide)

/-- An unconditional loop exhausts every finite fuel budget. -/
theorem exec_loop_timeout (fuel : Nat) (ns : Namespace) :
    exec fuel [Stmt.whileTrue []] ns = .timeout := by
  induction fuel with
  | zero => rfl
  | succ f ih => simpa [exec] using ih

/-- C5: a script whose execution does not finish within the `timeLimit`
budget yields `ResourceExceeded(Timeout)` — in particular the
unconditional loop `while True: pass` does so for every budget — and
`run` returns a plain value, so no running context survives the call. -/
theorem deadline_elapsed_returns_timeout (p : Policy) (s : Script) (ns : Namespace)
    (h : exec p.timeLimit s ns = .timeout) :
    run p s ns = .resourceExceeded .timeout ∧
    ∀ fuel ns2, exec fuel [Stmt.whileTrue []] ns2 = .timeout := by
  constructor
  · unfold run
    rw [h]
  · exact fun fuel ns2 => exec_loop_timeout fuel ns2

/-- C5 witness: the unconditional loop times out under the default
budget and `run` reports `ResourceExceeded(Timeout)`. -/
theorem deadline_elapsed_returns_timeout_witness :
    exec defaultPolicy.timeLimit [Stmt.whileTrue []] [] = .timeout ∧
    run defaultPolicy [Stmt.whileTrue []] [] = .resourceExceeded .timeout :=
  ⟨rfl, (deadline_elapsed_returns_timeout defaultPolicy [Stmt.whileTrue []] [] rfl).1⟩

/-- C6: a host error raised during execution is caught and reported as
`RuntimeFailure` carrying exactly the error's textual description; every
such description is sanitized (single line, no stack-trace marker, no
path separator); and `result = 1/0` yields
`RuntimeFailure{"division by zero"}`. -/
theorem runtime_errors_caught_and_sanitized (p : Policy) (s : Script)
    (ns : Namespace) (er : RtError) (h : exec p.timeLimit s ns = .err er) :
    run p s ns = .runtimeFailure (describe er) ∧
    (∀ e, sanitizedMsg (describe e) = true) ∧
    execute defaultPolicy "result = 1/0" [] [] = .runtimeFailure "division by zero" := by
  refine ⟨?_, ?_, by decide⟩
  · unfold run
    rw [h]
  · intro e
    cases e <;> decide

/-- C6 witness: `result = 1/0` raises a division-by-zero host error and
`run` reports its sanitized description. -/
theorem runtime_errors_caught_witness :
    exec defaultPolicy.timeLimit
        [Stmt.assign "result" (.binop .div (.lit (.int 1)) (.lit (.int 0)))] [] =
      .err .divisionByZero ∧
    run defaultPolicy
        [Stmt.assign "result" (.binop .div (.lit (.int 1)) (.lit (.int 0)))] [] =
      .runtimeFailure "division by zero" :=
  ⟨rfl,
    (runtime_errors_caught_and_sanitized defaultPolicy
      [Stmt.assign "result" (.binop .div (.lit (.int 1)) (.lit (.int 0)))] []
      .divisionByZero rfl).1⟩

mutual

/-- A statement the validator accepts contains no blocked import. -/
theorem validateStmt_none_no_blocked_import (p : Policy) (s : Stmt)
    (h : validateStmt p s = none) : stmtHasBlockedImport p s = false := by
  cases s with
  | importMod m =>
      simp only [validateStmt] at h
      by_cases hm : p.isModuleAllowed m
      · simp [stmtHasBlockedImport, hm]
      · rw [if_neg hm] at h
        exact absurd h (by simp)
  | assign x e => rfl
  | exprStmt e => rfl
  | whileTrue body =>
      simp only [validateStmt] at h
      simp only [stmtHasBlockedImport]
      exact validateStmts_none_no_blocked_import p body h
  | dynEval e =>
      simp only [validateStmt] at h
      exact absurd h (by simp)

/-- A statement list the validator accepts contains no blocked import. -/
theorem validateStmts_none_no_blocked_import (p : Policy) (l : List Stmt)
    (h : validateStmts p l = none) : stmtsHaveBlockedImport p l = false := by
  cases l with
  | nil => rfl
  | cons s rest =>
      simp only [validateStmts] at h
      cases hs : validateStmt p s with
      | some r =>
          simp only [hs] at h
          exact absurd h (by simp)
      | none =>
          simp only [hs] at h
          simp only [stmtsHaveBlockedImport,
            validateStmt_none_no_blocked_import p s hs,
            validateStmts_none_no_blocked_import p rest h, Bool.or_self]

end

/-- C2 counterexample: a script whose first violation is a dunder
attribute and whose second statement imports the blocked module `os` is
rejected with a reason that does not name `os`, so the claim's
universally quantified "reason naming m" fails. -/
theorem blocked_import_not_always_named :
    defaultPolicy.isModuleAllowed "os" = false ∧
    stmtsHaveBlockedImport defaultPolicy
      [Stmt.exprStmt (.attr (.var "x") "__class__"), Stmt.importMod "os"] = true ∧
    validate defaultPolicy
      [Stmt.exprStmt (.attr (.var "x") "__class__"), Stmt.importMod "os"] =
      .failure "blocked attribute: __class__" ∧
    containsSeq "blocked attribute: __class__".data "os".data = false := by
  decide

/-- C2 (amended): a script containing a blocked module import is always
rejected — `validate` returns a `ValidationFailure` and the pipeline
never reaches `run` — and the source `import os` is rejected with the
reason `blocked module: os`. -/
theorem blocked_import_always_rejected (p : Policy) (ast : Script)
    (d : List (String × Value)) (hl : List (String × HelperFn))
    (h : stmtsHaveBlockedImport p ast = true) :
    (∃ r, validate p ast = .failure r ∧ executeAst p ast d hl = .validationFailure r) ∧
    execute defaultPolicy "import os" [] [] = .validationFailure "blocked module: os" := by
  refine ⟨?_, by decide⟩
  cases hv : validateStmts p ast with
  | none =>
      rw [validateStmts_none_no_blocked_import p ast hv] at h
      exact absurd h (by simp)
  | some r =>
      refine ⟨r, ?_, ?_⟩
      · simp [validate, hv]
      · simp [executeAst, validate, hv]

/-- C2 witness: the one-statement script importing `os` satisfies the
hypothesis and the amended conclusions. -/
theorem blocked_import_always_rejected_witness :
    stmtsHaveBlockedImport defaultPolicy [Stmt.importMod "os"] = true ∧
    ((∃ r, validate defaultPolicy [Stmt.importMod "os"] = .failure r ∧
        executeAst defaultPolicy [Stmt.importMod "os"] [] [] = .validationFailure r) ∧
      execute defaultPolicy "import os" [] [] = .validationFailure "blocked module: os") :=
  ⟨by decide,
    blocked_import_always_rejected defaultPolicy [Stmt.importMod "os"] [] [] (by decide)⟩

mutual

/-- An expression the validator accepts contains no unsafe attribute. -/
theorem validateExpr_none_no_unsafe_attr (p : Policy) (e : Expr)
    (h : validateExpr p e = none) : exprHasUnsafeAttr e = false := by
  cases e with
  | lit v => rfl
  | var x => rfl
  | attr e a =>
      simp only [validateExpr] at h
      by_cases hs : isAttributeNameSafe a = true
      · rw [if_pos hs] at h
        simp only [exprHasUnsafeAttr, hs,
          validateExpr_none_no_unsafe_attr p e h, Bool.not_true, Bool.or_self]
      · rw [if_neg hs] at h
        exact absurd h (by simp)
  | call f a =>
      simp only [validateExpr] at h
      by_cases hc : p.isCallableAllowed f = true
      · rw [if_pos hc] at h
        simp only [exprHasUnsafeAttr, validateExpr_none_no_unsafe_attr p a h]
      · rw [if_neg hc] at h
        exact absurd h (by simp)
  | binop op l r =>
      simp only [validateExpr] at h
      cases hl : validateExpr p l with
      | some rr =>
          simp only [hl] at h
          exact absurd h (by simp)
      | none =>
          simp only [hl] at h
          simp only [exprHasUnsafeAttr,
            validateExpr_none_no_unsafe_attr p l hl,
            validateExpr_none_no_unsafe_attr p r h, Bool.or_self]

/-- A statement the validator accepts contains no unsafe attribute. -/
theorem validateStmt_none_no_unsafe_attr (p : Policy) (s : Stmt)
    (h : validateStmt p s = none) : stmtHasUnsafeAttr s = false := by
  cases s with
  | importMod m => rfl
  | assign x e =>
      simp only [validateStmt] at h
      simp only [stmtHasUnsafeAttr]
      exact validateExpr_none_no_unsafe_attr p e h
  | exprStmt e =>
      simp only [validateStmt] at h
      simp only [stmtHasUnsafeAttr]
      exact validateExpr_none_no_unsafe_attr p e h
  | whileTrue body =>
      simp only [validateStmt] at h
      simp only [stmtHasUnsafeAttr]
      exact validateStmts_none_no_unsafe_attr p body h
  | dynEval e =>
      simp only [validateStmt] at h
      exact absurd h (by simp)

/-- A statement list the validator accepts contains no unsafe attribute. -/
theorem validateStmts_none_no_unsafe_attr (p : Policy) (l : List Stmt)
    (h : validateStmts p l = none) : stmtsHaveUnsafeAttr l = false := by
  cases l with
  | nil => rfl
  | cons s rest =>
      simp only [validateStmts] at h
      cases hs : validateStmt p s with
      | some r =>
          simp only [hs] at h
          exact absurd h (by simp)
      | none =>
          simp only [hs] at h
          simp only [stmtsHaveUnsafeAttr,
            validateStmt_none_no_unsafe_attr p s hs,
            validateStmts_none_no_unsafe_attr p rest h, Bool.or_self]

end

/-- C3 counterexample: a script whose first violation imports a blocked
module and whose second statement accesses `__class__` is rejected with
a reason naming the module, not the attribute, so the claim's "naming
the blocked attribute" fails. -/
theorem unsafe_attribute_not_always_named :
    stmtsHaveUnsafeAttr
      [Stmt.importMod "os", Stmt.exprStmt (.attr (.var "x") "__class__")] = true ∧
    validate defaultPolicy
      [Stmt.importMod "os", Stmt.exprStmt (.attr (.var "x") "__class__")] =
      .failure "blocked module: os" ∧
    containsSeq "blocked module: os".data "__class__".data = false := by
  decide

/-- C3 (amended): a script containing an attribute access whose name
matches the dunder-style pattern is always rejected — `validate` returns
a `ValidationFailure` and the pipeline never reaches `run` — and the
source `x.__class__` is rejected with the reason
`blocked attribute: __class__`. -/
theorem unsafe_attribute_always_rejected (p : Policy) (ast : Script)
    (d : List (String × Value)) (hl : List (String × HelperFn))
    (h : stmtsHaveUnsafeAttr ast = true) :
    (∃ r, validate p ast = .failure r ∧ executeAst p ast d hl = .validationFailure r) ∧
    execute defaultPolicy "x.__class__" [] [] =
      .validationFailure "blocked attribute: __class__" := by
  refine ⟨?_, by decide⟩
  cases hv : validateStmts p ast with
  | none =>
      rw [validateStmts_none_no_unsafe_attr p ast hv] at h
      exact absurd h (by simp)
  | some r =>
      refine ⟨r, ?_, ?_⟩
      · simp [validate, hv]
      · simp [executeAst, validate, hv]

/-- C3 witness: the one-statement script accessing `y.__dict__`
satisfies the hypothesis and the amended conclusions. -/
theorem unsafe_attribute_always_rejected_witness :
    stmtsHaveUnsafeAttr [Stmt.exprStmt (.attr (.var "y") "__dict__")] = true ∧
    ((∃ r, validate defaultPolicy [Stmt.exprStmt (.attr (.var "y") "__dict__")] = .failure r ∧
        executeAst defaultPolicy [Stmt.exprStmt (.attr (.var "y") "__dict__")] [] [] =
          .validationFailure r) ∧
      execute defaultPolicy "x.__class__" [] [] =
        .validationFailure "blocked attribute: __class__") :=
  ⟨by decide,
    unsafe_attribute_always_rejected defaultPolicy
      [Stmt.exprStmt (.attr (.var "y") "__dict__")] [] [] (by decide)⟩

mutual

/-- The validator returns exactly the first entry of the depth-first
violations list of an expression. -/
theorem validateExpr_eq_head (p : Policy) (e : Expr) :
    validateExpr p e = (violationsExpr p e).head? := by
  cases e with
  | lit v => rfl
  | var x => rfl
  | attr e a =>
      by_cases hs : isAttributeNameSafe a = true <;>
        simp [validateExpr, violationsExpr, hs, validateExpr_eq_head p e]
  | call f a =>
      by_cases hc : p.isCallableAllowed f = true <;>
        simp [validateExpr, violationsExpr, hc, validateExpr_eq_head p a]
  | binop op l r =>
      simp only [validateExpr, violationsExpr]
      rw [validateExpr_eq_head p l, validateExpr_eq_head p r]
      cases violationsExpr p l <;> simp

/-- The validator returns exactly the first entry of the depth-first
violations list of a statement. -/
theorem validateStmt_eq_head (p : Policy) (s : Stmt) :
    validateStmt p s = (violationsStmt p s).head? := by
  cases s with
  | importMod m =>
      by_cases hm : p.isModuleAllowed m = true <;>
        simp [validateStmt, violationsStmt, hm]
  | assign x e =>
      simp only [validateStmt, violationsStmt]
      exact validateExpr_eq_head p e
  | exprStmt e =>
      simp only [validateStmt, violationsStmt]
      exact validateExpr_eq_head p e
  | whileTrue body =>
      simp only [validateStmt, violationsStmt]
      exact validateStmts_eq_head p body
  | dynEval e => rfl

/-- The validator returns exactly the first entry of the depth-first
violations list of a statement list. -/
theorem validateStmts_eq_head (p : Policy) (l : List Stmt) :
    validateStmts p l = (violationsStmts p l).head? := by
  cases l with
  | nil => rfl
  | cons s rest =>
      simp only [validateStmts, violationsStmts]
      rw [validateStmt_eq_head p s, validateStmts_eq_head p rest]
      cases violationsStmt p s <;> simp

end

/-- C8: on a script with at least one policy violation, `validate`
reports precisely the first violation of the single left-to-right
depth-first traversal — one offending construct, never an aggregate —
so the outcome is a function of the script and the policy alone. -/
theorem validator_reports_first_violation (p : Policy) (s : Script)
    (h : violationsStmts p s ≠ []) :
    validate p s = .failure ((violationsStmts p s).head h) := by
  unfold validate
  rw [validateStmts_eq_head p s, List.head?_eq_head h]

/-- C8 witness: a script with two violations (a blocked module, then a
denied callable) is rejected with exactly the first one's reason. -/
theorem validator_reports_first_violation_witness :
    violationsStmts defaultPolicy
      [Stmt.importMod "sys", Stmt.exprStmt (.call "eval" (.lit (.int 1)))] ≠ [] ∧
    validate defaultPolicy
      [Stmt.importMod "sys", Stmt.exprStmt (.call "eval" (.lit (.int 1)))] =
      .failure "blocked module: sys" :=
  ⟨by decide,
    validator_reports_first_violation defaultPolicy
      [Stmt.importMod "sys", Stmt.exprStmt (.call "eval" (.lit (.int 1)))] (by decide)⟩

end Sandbox
